import Mathlib

/-!
Shallow embedding of the model definitions in src/models.py of the
Crowd-Forecasting-Using-CMGraphs repository, together with proofs about
the forward computations.

Conventions of the embedding:

* Tensors are nested lists of rationals; a node-feature input X is nested
  as (batch, node, feature, time), matching the (B, N, F, T) layout of the
  Python code.  Machine floats are modelled by rationals: none of the
  verified properties depends on floating-point rounding.
* Layers whose implementation lives in external libraries (GCNConv from
  torch_geometric, torch.nn.GRU, the TGCN2 / A3TGCN2 recurrent cells) are
  embedded as records carrying their declared constructor arguments
  together with an abstract forward function standing for the learned
  layer.  Layers whose composition is written in this repository
  (KLayerGCNConv, DeepGCNLayer in its configuration used here,
  torch.nn.Linear, LeakyReLU, dropout, reshape/view/squeeze/cat) are given
  concrete executable semantics.
* Failing tensor operations (out-of-range time index, shape mismatch on a
  slice assignment, reshape with an incompatible element count, indexing
  -1 into an empty dimension, a Python function falling through without a
  return value) are modelled with Option: none stands for a raised error
  (or a returned Python None).
-/

abbrev Tensor1 : Type := List ℚ

abbrev Tensor2 : Type := List Tensor1

abbrev Tensor3 : Type := List Tensor2

abbrev Tensor4 : Type := List Tensor3

/-- Graph edges: torch LongTensor of shape (2, E), one pair per edge. -/
abbrev EdgeIndex : Type := List (ℕ × ℕ)

/-- A dropout mask: for each (coordinate triple of an) element, `true`
means the element survives, `false` means it is zeroed.  This makes the
randomness consumed by F.dropout an explicit argument. -/
abbrev DropMask : Type := ℕ → ℕ → ℕ → Bool

/-- The type of the learned forward function of one GCNConv layer:
(B, N, F) node features, edge index, optional edge weights to
(B, N, out_channels) features (node_dim=1). -/
abbrev GCNRun : Type := Tensor3 → EdgeIndex → Option Tensor1 → Tensor3

/-- Rectangularity of a 2-D tensor: R rows, each of length C. -/
abbrev Rect2 (R C : ℕ) (t : Tensor2) : Prop :=
  t.length = R ∧ ∀ r ∈ t, r.length = C

/-- Rectangularity of a 3-D tensor of shape (B, N, F). -/
abbrev Rect3 (B N F : ℕ) (t : Tensor3) : Prop :=
  t.length = B ∧ ∀ u ∈ t, Rect2 N F u

/-- Rectangularity of a 4-D tensor of shape (B, N, T, W). -/
abbrev Rect4 (B N T W : ℕ) (t : Tensor4) : Prop :=
  t.length = B ∧ ∀ u ∈ t, Rect3 N T W u

/-- Size of dimension 3 of a (B, N, F, T) tensor, read off the nesting the
way torch reads X.shape[3] (uniform for rectangular tensors). -/
def shape4dim3 (X : Tensor4) : ℕ := X.headI.headI.headI.length

/-- The value of the slice X[:, :, :, t] of a (B, N, F, T) tensor. -/
def slice4 (X : Tensor4) (t : ℕ) : Tensor3 :=
  X.map (fun xb => xb.map (fun xn => xn.map (fun xf => xf.getD t 0)))

/-- X[:, :, :, t] with the bound check torch performs on the time index:
indexing past X.shape[3] raises, modelled as none. -/
def sliceLastDim (X : Tensor4) (t : ℕ) : Option Tensor3 :=
  if t < shape4dim3 X then some (slice4 X t) else none

/-- Sequential evaluation of a loop body `f 0, f 1, ..., f (T-1)` that can
raise, collecting the results in order; the first failure aborts the whole
computation, as a raised exception aborts the Python loop. -/
def mapRange {α : Type} (f : ℕ → Option α) : ℕ → Option (List α)
  | 0 => some []
  | n + 1 => (mapRange f n).bind (fun l => (f n).map (fun a => l ++ [a]))

/-- The tensor of shape (B, N, T, W) whose [b, n, t, :] entry is
outs[t][b][n]: the result of writing gcn output number t into
gru_in[:, :, t, :] for every t, which overwrites the whole zero buffer
because the loop covers every index of dimension 2. -/
def stackSeq (B N : ℕ) (outs : List Tensor3) : Tensor4 :=
  (List.range B).map (fun b =>
    (List.range N).map (fun n =>
      outs.map (fun o => (o.getD b []).getD n [])))

/-- The buffer loop `gru_in = torch.zeros(B, N, T, W); for t: ...;
gru_in[:, :, t, :] = gcn_out`: every slice assignment requires the
assigned value to have shape (B, N, W) (broadcasting of smaller shapes is
not exercised by this code), otherwise torch raises. -/
def assembleGruIn (B N W : ℕ) (outs : List Tensor3) : Option Tensor4 :=
  if ∀ o ∈ outs, Rect3 B N W o then some (stackSeq B N outs) else none

/-- gru_out[:, -1, :]: the last time step of every sequence; indexing -1
raises when a sequence is empty. -/
def lastTimeStep (g : Tensor3) : Option Tensor2 :=
  if ∀ s ∈ g, s ≠ [] then some (g.map (fun s => s.getLastD [])) else none

/-- Row-major flattening of all four dimensions. -/
def flattenAll (X : Tensor4) : Tensor1 := X.flatten.flatten.flatten

/-- The value torch.reshape / Tensor.view builds for target shape
(B, N, P, -1): row-major regrouping of the flat element list, with the
trailing dimension inferred as numel / (B*N*P). -/
def reshapeBody (B N P : ℕ) (flat : Tensor1) : Tensor4 :=
  (List.range B).map (fun b =>
    (List.range N).map (fun n =>
      (List.range P).map (fun p =>
        (List.range (flat.length / (B * N * P))).map (fun j =>
          flat.getD (((b * N + n) * P + p) * (flat.length / (B * N * P)) + j) 0))))

/-- torch.reshape(·, (B, N, P, -1)) on the flat element list: the -1
dimension can be inferred only when the known dimensions are nonzero, the
tensor is nonempty and the element count is divisible by B*N*P; otherwise
torch raises. -/
def reshapeTo4 (B N P : ℕ) (flat : Tensor1) : Option Tensor4 :=
  if B * N * P ≠ 0 ∧ flat.length ≠ 0 ∧ B * N * P ∣ flat.length then
    some (reshapeBody B N P flat)
  else none

/-- out.view(B, N, P, -1) on a 2-D tensor. -/
def view4 (B N P : ℕ) (M : Tensor2) : Option Tensor4 :=
  reshapeTo4 B N P M.flatten

/-- Tensor.squeeze(dim=3): removes dimension 3 exactly when its size is 1,
otherwise returns the tensor unchanged (so the result is 3-D or 4-D).  The
size of dimension 3 is read off the first innermost entry, which agrees
with the stored shape for the rectangular tensors produced by view. -/
def squeeze3 (t : Tensor4) : Tensor3 ⊕ Tensor4 :=
  if t.headI.headI.headI.length = 1 then
    Sum.inl (t.map (fun u => u.map (fun v => v.map (fun r => r.headI))))
  else Sum.inr t

/-- Dot product, truncating at the shorter operand. -/
def dot (a b : Tensor1) : ℚ := (List.zipWith (· * ·) a b).sum

/-- torch.nn.Linear(inFeatures, outFeatures) with its learned weight
matrix (outFeatures × inFeatures) and bias (outFeatures). -/
structure LinearMod where
  inFeatures : ℕ
  outFeatures : ℕ
  weight : Tensor2
  bias : Tensor1

/-- Construction of a Linear module from its two size arguments and
arbitrary learned parameters; the parameter shapes are fixed by the
constructor arguments, as in torch. -/
def mkLinear (I O : ℕ) (w : ℕ → ℕ → ℚ) (b : ℕ → ℚ) : LinearMod :=
  ⟨I, O, (List.range O).map (fun i => (List.range I).map (w i)),
    (List.range O).map b⟩

/-- Application of a Linear module to one feature vector: W x + b. -/
def LinearMod.run (l : LinearMod) (x : Tensor1) : Tensor1 :=
  List.zipWith (· + ·) (l.weight.map (fun wr => dot wr x)) l.bias

/-- torch.nn.GRU(inputSize, hiddenSize, numLayers, batch_first=...): the
declared sizes together with the library-implemented batched recurrence,
kept abstract.  run maps the (S, T, F) input sequence batch to the
(S, T, hiddenSize) output sequence batch (the returned final hidden state
is discarded by every caller in models.py). -/
structure GRUMod where
  inputSize : ℕ
  hiddenSize : ℕ
  numLayers : ℕ
  batchFirst : Bool
  run : Tensor3 → Tensor3

/-- The shape contract of the library GRU used by the shape theorems: the
output batch has one sequence per input sequence, and nonempty input
sequences give nonempty output sequences. -/
def GRUShapeOK (run : Tensor3 → Tensor3) : Prop :=
  ∀ g, (run g).length = g.length ∧
    ((∀ s ∈ g, s ≠ []) → ∀ s ∈ run g, s ≠ [])

/-- torch.nn.LeakyReLU with the given negative slope (default 1/100). -/
def leakyReLU (slope : ℚ) (x : ℚ) : ℚ := if x < 0 then slope * x else x

/-- Elementwise application on a 3-D tensor. -/
def map3 (f : ℚ → ℚ) (t : Tensor3) : Tensor3 :=
  t.map (fun u => u.map (fun r => r.map f))

/-- torch.cat([x, h], dim=-1) on two (B, N, ·) tensors. -/
def cat3 (x h : Tensor3) : Tensor3 :=
  List.zipWith (fun xu hu => List.zipWith (fun xr hr => xr ++ hr) xu hu) x h

/-- F.dropout(h, p, training): in training mode every element is zeroed
when its mask bit is false and rescaled by 1/(1-p) when it survives; in
eval mode the input passes through unchanged and the mask is unread. -/
def dropout3 (p : ℚ) (training : Bool) (mask : DropMask) (h : Tensor3) : Tensor3 :=
  if training then
    (List.range h.length).map (fun b =>
      (List.range (h.getD b []).length).map (fun n =>
        (List.range ((h.getD b []).getD n []).length).map (fun f =>
          if mask b n f then ((h.getD b []).getD n []).getD f 0 / (1 - p)
          else 0)))
  else h

/-- torch_geometric.nn.GCNConv: the constructor arguments recorded by
src/models.py plus the learned library forward function, kept abstract. -/
structure GCNConv where
  in_channels : ℕ
  out_channels : ℕ
  node_dim : ℕ
  improved : Bool
  cached : Bool
  add_self_loops : Bool
  run : GCNRun

instance : Inhabited GCNConv :=
  ⟨⟨0, 0, 0, false, false, false, fun _ _ _ => []⟩⟩

/-- GCNConv.forward(x, edge_index, edge_weight). -/
def GCNConv.forward (c : GCNConv) (x : Tensor3) (ei : EdgeIndex)
    (ew : Option Tensor1) : Tensor3 :=
  c.run x ei ew

/-- KLayerGCNConv (src/models.py lines 11-47): a module holding the list
self.convs of K GCNConv layers (the nn.Sequential wrapper only affects
parameter registration, not indexing). -/
structure KLayerGCNConv where
  convs : List GCNConv

/-- KLayerGCNConv.__init__ (lines 12-43): layer 0 maps in_channels to
out_channels, layers 1..K-1 map out_channels to out_channels; `fresh k`
stands for the freshly initialised learned forward of the k-th GCNConv
(the .cuda() device move is semantically transparent). -/
def KLayerGCNConv.init (K ic oc nd : ℕ) (imp ca asl : Bool)
    (fresh : ℕ → GCNRun) : KLayerGCNConv :=
  { convs := (List.range K).map (fun k =>
      if k = 0 then ⟨ic, oc, nd, imp, ca, asl, fresh k⟩
      else ⟨oc, oc, nd, imp, ca, asl, fresh k⟩) }

/-- KLayerGCNConv.forward (lines 44-47): the loop body ends in `return x`,
so the first iteration already returns conv 0 applied once; with an empty
layer list the function falls through and returns Python None. -/
def KLayerGCNConv.forward (m : KLayerGCNConv) (x : Tensor3) (ei : EdgeIndex)
    (ew : Option Tensor1) : Option Tensor3 :=
  match m.convs with
  | [] => none
  | c :: _ => some (c.forward x ei ew)

/-- torch_geometric's DeepGCNLayer in the configuration built at
src/models.py lines 72-83: conv=KLayerGCNConv, norm=None,
act=LeakyReLU(), dropout=0.1, block='dense'.  For this configuration the
library forward computes h = conv(x, ...); h = act(h);
h = cat([x, h], dim=-1); return F.dropout(h, p, training). -/
structure DeepGCNLayer where
  conv : KLayerGCNConv
  act : ℚ → ℚ
  dropout : ℚ
  training : Bool

/-- DeepGCNLayer forward for the block='dense', norm=None configuration;
none propagates a conv that returned Python None. -/
def DeepGCNLayer.forward (l : DeepGCNLayer) (x : Tensor3) (ei : EdgeIndex)
    (ew : Option Tensor1) (mask : DropMask) : Option Tensor3 :=
  (l.conv.forward x ei ew).map (fun h =>
    dropout3 l.dropout l.training mask (cat3 x (map3 l.act h)))

/-- DenseGCNGRU (src/models.py lines 52-100). -/
structure DenseGCNGRU where
  in_channels : ℕ
  periods : ℕ
  batch_size : ℕ
  improved : Bool
  cached : Bool
  add_self_loops : Bool
  densegcn : DeepGCNLayer
  gru : GRUMod
  fc : LinearMod

/-- DenseGCNGRU.__init__ / _setup_layers (lines 53-85): a dense
DeepGCNLayer around KLayerGCNConv(K=3, in_channels, 128, node_dim=1),
GRU(130, 64, 2, batch_first=True), Linear(64, periods).  `training` is
the torch module mode bit consumed by dropout (True right after
construction). -/
def DenseGCNGRU.init (in_channels periods batch_size : ℕ)
    (improved cached add_self_loops : Bool) (fresh : ℕ → GCNRun)
    (gruRun : Tensor3 → Tensor3) (fcw : ℕ → ℕ → ℚ) (fcb : ℕ → ℚ)
    (training : Bool) : DenseGCNGRU :=
  { in_channels := in_channels
    periods := periods
    batch_size := batch_size
    improved := improved
    cached := cached
    add_self_loops := add_self_loops
    densegcn :=
      { conv := KLayerGCNConv.init 3 in_channels 128 1 improved cached
          add_self_loops fresh
        act := leakyReLU (1 / 100)
        dropout := 1 / 10
        training := training }
    gru := ⟨130, 64, 2, true, gruRun⟩
    fc := mkLinear 64 periods fcw fcb }

/-- One iteration of the DenseGCNGRU.forward loop (lines 93-95): the dense
block applied to X[:, :, :, t], with the fresh dropout mask of step t. -/
def DenseGCNGRU.stepOut (m : DenseGCNGRU) (X : Tensor4) (ei : EdgeIndex)
    (ew : Option Tensor1) (masks : ℕ → DropMask) (t : ℕ) : Option Tensor3 :=
  (sliceLastDim X t).bind (fun xt => m.densegcn.forward xt ei ew (masks t))

/-- DenseGCNGRU.forward (lines 87-100): loop over X.shape[3] filling the
(B, N, T, 130) buffer, flatten(0, 1), GRU, Linear on the last time step,
view(B, N, periods, -1), squeeze(dim=3). -/
def DenseGCNGRU.forward (m : DenseGCNGRU) (X : Tensor4) (ei : EdgeIndex)
    (ew : Option Tensor1) (masks : ℕ → DropMask) :
    Option (Tensor3 ⊕ Tensor4) :=
  (mapRange (m.stepOut X ei ew masks) (shape4dim3 X)).bind (fun outs =>
    (assembleGruIn X.length X.headI.length 130 outs).bind (fun gruIn =>
      (lastTimeStep (m.gru.run gruIn.flatten)).bind (fun lastH =>
        (view4 X.length X.headI.length m.periods (lastH.map m.fc.run)).map
          squeeze3)))

/-- GRU_only (src/models.py lines 105-138). -/
structure GRU_only where
  in_channels : ℕ
  periods : ℕ
  batch_size : ℕ
  improved : Bool
  cached : Bool
  add_self_loops : Bool
  gru : GRUMod
  fc : LinearMod

/-- GRU_only.__init__ / _setup_layers (lines 106-126):
GRU(in_channels, 64, 2, batch_first=True) and Linear(64, periods). -/
def GRU_only.init (in_channels periods batch_size : ℕ)
    (improved cached add_self_loops : Bool) (gruRun : Tensor3 → Tensor3)
    (fcw : ℕ → ℕ → ℚ) (fcb : ℕ → ℚ) : GRU_only :=
  { in_channels := in_channels
    periods := periods
    batch_size := batch_size
    improved := improved
    cached := cached
    add_self_loops := add_self_loops
    gru := ⟨in_channels, 64, 2, true, gruRun⟩
    fc := mkLinear 64 periods fcw fcb }

/-- GRU_only.forward (lines 128-138): edge_index and edge_weight are dummy
placeholders the body never reads; reshape to (B, N, periods, -1),
flatten(0, 1), GRU, Linear on the last step, view, squeeze. -/
def GRU_only.forward (m : GRU_only) (X : Tensor4) (ei : Option EdgeIndex)
    (ew : Option Tensor1) : Option (Tensor3 ⊕ Tensor4) :=
  (reshapeTo4 X.length X.headI.length m.periods (flattenAll X)).bind
    (fun gruIn =>
      (lastTimeStep (m.gru.run gruIn.flatten)).bind (fun lastH =>
        (view4 X.length X.headI.length m.periods (lastH.map m.fc.run)).map
          squeeze3))

/-- GCNGRU (src/models.py lines 143-212). -/
structure GCNGRU where
  in_channels : ℕ
  periods : ℕ
  batch_size : ℕ
  improved : Bool
  cached : Bool
  add_self_loops : Bool
  gcns : KLayerGCNConv
  gru : GRUMod
  fc : LinearMod

/-- GCNGRU.__init__ / _setup_layers (lines 144-193):
KLayerGCNConv(K=3, in_channels, 128, node_dim=1),
GRU(128, 64, 2, batch_first=True), Linear(64, periods). -/
def GCNGRU.init (in_channels periods batch_size : ℕ)
    (improved cached add_self_loops : Bool) (fresh : ℕ → GCNRun)
    (gruRun : Tensor3 → Tensor3) (fcw : ℕ → ℕ → ℚ) (fcb : ℕ → ℚ) : GCNGRU :=
  { in_channels := in_channels
    periods := periods
    batch_size := batch_size
    improved := improved
    cached := cached
    add_self_loops := add_self_loops
    gcns := KLayerGCNConv.init 3 in_channels 128 1 improved cached
      add_self_loops fresh
    gru := ⟨128, 64, 2, true, gruRun⟩
    fc := mkLinear 64 periods fcw fcb }

/-- One iteration of the GCNGRU.forward loop (lines 201-206): the stacked
GCN block applied to X[:, :, :, period]; a Python None returned by the
block would make the slice assignment raise, which none models. -/
def GCNGRU.stepOut (m : GCNGRU) (X : Tensor4) (ei : EdgeIndex)
    (ew : Option Tensor1) (t : ℕ) : Option Tensor3 :=
  (sliceLastDim X t).bind (fun xt => m.gcns.forward xt ei ew)

/-- GCNGRU.forward (lines 195-212): loop over range(self.periods) filling
the (B, N, periods, 128) buffer, flatten(0, 1), GRU, Linear on the last
step, view(B, N, periods, -1), squeeze(dim=3). -/
def GCNGRU.forward (m : GCNGRU) (X : Tensor4) (ei : EdgeIndex)
    (ew : Option Tensor1) : Option (Tensor3 ⊕ Tensor4) :=
  (mapRange (m.stepOut X ei ew) m.periods).bind (fun outs =>
    (assembleGruIn X.length X.headI.length 128 outs).bind (fun gruIn =>
      (lastTimeStep (m.gru.run gruIn.flatten)).bind (fun lastH =>
        (view4 X.length X.headI.length m.periods (lastH.map m.fc.run)).map
          squeeze3)))

/-- The library A3TGCN2 attention cell (external): declared sizes plus the
abstract learned forward from the whole (B, N, F, T) window to (B, N, 64)
features. -/
structure A3TGCN2Cell where
  in_channels : ℕ
  out_channels : ℕ
  periods : ℕ
  batch_size : ℕ
  run : Tensor4 → EdgeIndex → Tensor3

/-- A3TGCN_2 (src/models.py lines 214-229). -/
structure A3TGCN_2 where
  tgnn : A3TGCN2Cell
  fc : LinearMod

/-- A3TGCN_2.__init__ (lines 215-220). -/
def A3TGCN_2.init (node_features periods batch_size : ℕ)
    (cellRun : Tensor4 → EdgeIndex → Tensor3) (fcw : ℕ → ℕ → ℚ)
    (fcb : ℕ → ℚ) : A3TGCN_2 :=
  { tgnn := ⟨node_features, 64, periods, batch_size, cellRun⟩
    fc := mkLinear 64 periods fcw fcb }

/-- A3TGCN_2.forward (lines 222-229): h = tgnn(x, edge_index); fc(h), the
Linear acting on the last dimension. -/
def A3TGCN_2.forward (m : A3TGCN_2) (x : Tensor4) (ei : EdgeIndex) : Tensor3 :=
  (m.tgnn.run x ei).map (fun u => u.map m.fc.run)

/-- The library TGCN2 recurrent cell (external): declared arguments plus
the abstract learned forward (x_t, edge_index, edge_weight, H) to the new
(B, N, 64) hidden state. -/
structure TGCN2Cell where
  in_channels : ℕ
  out_channels : ℕ
  batch_size : ℕ
  improved : Bool
  cached : Bool
  add_self_loops : Bool
  run : Tensor3 → EdgeIndex → Option Tensor1 → Option Tensor3 → Tensor3

/-- TGCN_2 (src/models.py lines 231-271). -/
structure TGCN_2 where
  tgnn : TGCN2Cell
  fc : LinearMod
  periods : ℕ

/-- TGCN_2.__init__ (lines 245-259). -/
def TGCN_2.init (node_features periods batch_size : ℕ)
    (improved cached add_self_loops : Bool)
    (cellRun : Tensor3 → EdgeIndex → Option Tensor1 → Option Tensor3 → Tensor3)
    (fcw : ℕ → ℕ → ℚ) (fcb : ℕ → ℚ) : TGCN_2 :=
  { tgnn := ⟨node_features, 64, batch_size, improved, cached,
      add_self_loops, cellRun⟩
    fc := mkLinear 64 periods fcw fcb
    periods := periods }

/-- TGCN_2.forward (lines 261-271): every loop iteration rebinds
out = tgnn(X[:, :, :, period], edge_index, edge_weight, H) with the SAME
argument H (the loop never stores the returned hidden state), then
fc(out) is returned; with periods = 0 the name `out` is unbound and the
final line raises, modelled as none.  Every iteration still evaluates its
time slice, so an out-of-range slice raises even if its value is later
discarded. -/
def TGCN_2.forward (m : TGCN_2) (X : Tensor4) (ei : EdgeIndex)
    (ew : Option Tensor1) (H : Option Tensor3) : Option Tensor3 :=
  (mapRange (fun period =>
      (sliceLastDim X period).map (fun xp => m.tgnn.run xp ei ew H))
    m.periods).bind (fun outs =>
      outs.getLast?.map (fun out => out.map (fun u => u.map m.fc.run)))

/-- The recurrent/linear tail shared by DenseGCNGRU and GCNGRU, named
after the spec sentence: given the stacked per-time-step spatial-block
output sequence, flatten(0, 1), run the GRU, take the last time step,
apply the Linear projection, view(B, N, periods, -1) and squeeze(dim=3). -/
def recurrentLinearTail (gru : GRUMod) (fc : LinearMod) (B N P : ℕ)
    (gruIn : Tensor4) : Option (Tensor3 ⊕ Tensor4) :=
  (lastTimeStep (gru.run gruIn.flatten)).bind (fun lastH =>
    (view4 B N P (lastH.map fc.run)).map squeeze3)

/-- The per-time-step spatial part of DenseGCNGRU.forward: the dense block
on every slice of the input window, stacked into the GRU input buffer. -/
def denseSpatialSeq (m : DenseGCNGRU) (X : Tensor4) (ei : EdgeIndex)
    (ew : Option Tensor1) (masks : ℕ → DropMask) : Option Tensor4 :=
  (mapRange (m.stepOut X ei ew masks) (shape4dim3 X)).bind
    (assembleGruIn X.length X.headI.length 130)

/-- The per-time-step spatial part of GCNGRU.forward: the plain stacked
GCN block on the first `periods` slices, stacked into the GRU input
buffer. -/
def gcnSpatialSeq (m : GCNGRU) (X : Tensor4) (ei : EdgeIndex)
    (ew : Option Tensor1) : Option Tensor4 :=
  (mapRange (m.stepOut X ei ew) m.periods).bind
    (assembleGruIn X.length X.headI.length 128)

/-- A concrete stand-in for a learned GCNConv forward, used by the
witness theorems: it maps any (B, N, F) input to the (B, N, 128) zero
tensor, meeting the library layer's shape contract. -/
def witConv (k : ℕ) : GCNRun :=
  fun x _ _ => x.map (fun u => u.map (fun _ => List.replicate 128 (0 : ℚ)))

/-- A concrete stand-in for the library GRU recurrence, used by the
witness theorems: the identity on sequence batches. -/
def witGRU : Tensor3 → Tensor3 := fun g => g

/-! Helper lemmas. -/

lemma opt_eq_some_getD {α : Type} {o : Option α} (d : α) (h : o.isSome = true) :
    o = some (o.getD d) := by
  cases o with
  | none => simp at h
  | some a => rfl

lemma headI_mem_of_ne {α : Type} [Inhabited α] {l : List α} (h : l ≠ []) :
    l.headI ∈ l := by
  cases l with
  | nil => exact absurd rfl h
  | cons a t => exact List.mem_cons_self a t

lemma getD_map_range {α : Type} (g : ℕ → α) (d : α) :
    ∀ {n t : ℕ}, t < n → ((List.range n).map g).getD t d = g t := by
  intro n t ht
  have hlen : t < ((List.range n).map g).length := by
    simpa using ht
  rw [List.getD_eq_getElem?_getD, List.getElem?_eq_getElem hlen]
  simp

lemma headI_map_range {α : Type} [Inhabited α] (g : ℕ → α) {n : ℕ}
    (h : 0 < n) : ((List.range n).map g).headI = g 0 := by
  obtain ⟨m, rfl⟩ := Nat.exists_eq_succ_of_ne_zero (Nat.pos_iff_ne_zero.mp h)
  rw [List.range_succ_eq_map]
  simp

lemma mapRange_congr {α : Type} {f g : ℕ → Option α} :
    ∀ {T : ℕ}, (∀ t, t < T → f t = g t) → mapRange f T = mapRange g T := by
  intro T
  induction T with
  | zero => intro _; rfl
  | succ n ih =>
      intro h
      simp only [mapRange]
      rw [ih (fun t ht => h t (Nat.lt_succ_of_lt ht)), h n (Nat.lt_succ_self n)]

lemma mapRange_eq_none {α : Type} {f : ℕ → Option α} {t0 : ℕ} :
    ∀ {T : ℕ}, t0 < T → f t0 = none → mapRange f T = none := by
  intro T
  induction T with
  | zero => intro h; exact absurd h (Nat.not_lt_zero t0)
  | succ n ih =>
      intro ht hf
      simp only [mapRange]
      rcases Nat.lt_succ_iff_lt_or_eq.mp ht with h | h
      · rw [ih h hf]; rfl
      · subst h
        cases hmr : mapRange f t0 with
        | none => rfl
        | some l => rw [hf]; rfl

lemma mapRange_map_eq {α : Type} {f : ℕ → Option α} {g : ℕ → α} :
    ∀ {T : ℕ}, (∀ t, t < T → f t = some (g t)) →
      mapRange f T = some ((List.range T).map g) := by
  intro T
  induction T with
  | zero => intro _; rfl
  | succ n ih =>
      intro h
      simp only [mapRange]
      rw [ih (fun t ht => h t (Nat.lt_succ_of_lt ht)), h n (Nat.lt_succ_self n)]
      simp [List.range_succ]

lemma mapRange_isSome {α : Type} {f : ℕ → Option α} :
    ∀ {T : ℕ} {l : List α}, mapRange f T = some l →
      ∀ t, t < T → (f t).isSome = true := by
  intro T
  induction T with
  | zero => intro l _ t ht; exact absurd ht (Nat.not_lt_zero t)
  | succ n ih =>
      intro l hl t ht
      simp only [mapRange] at hl
      cases hmr : mapRange f n with
      | none => rw [hmr] at hl; simp at hl
      | some l0 =>
          rw [hmr] at hl
          rcases Nat.lt_succ_iff_lt_or_eq.mp ht with h | h
          · exact ih hmr t h
          · subst h
            cases hft : f t with
            | none => rw [hft] at hl; simp at hl
            | some a => simp

lemma Rect2_getD {N F : ℕ} {t : Tensor2} (h : Rect2 N F t) {i : ℕ}
    (hi : i < N) : (t.getD i []).length = F := by
  have hlen : i < t.length := by rw [h.1]; exact hi
  rw [List.getD_eq_getElem?_getD, List.getElem?_eq_getElem hlen]
  exact h.2 _ (List.getElem_mem hlen)

lemma Rect3_getD {B N F : ℕ} {t : Tensor3} (h : Rect3 B N F t) {b : ℕ}
    (hb : b < B) : Rect2 N F (t.getD b []) := by
  have hlen : b < t.length := by rw [h.1]; exact hb
  rw [List.getD_eq_getElem?_getD, List.getElem?_eq_getElem hlen]
  exact h.2 _ (List.getElem_mem hlen)

lemma slice4_rect {B N F T : ℕ} {X : Tensor4} (h : Rect4 B N F T X)
    (t : ℕ) : Rect3 B N F (slice4 X t) := by
  refine ⟨by simp [slice4, h.1], ?_⟩
  intro u hu
  simp only [slice4, List.mem_map] at hu
  obtain ⟨xb, hxb, rfl⟩ := hu
  refine ⟨by simpa using (h.2 xb hxb).1, ?_⟩
  intro r hr
  simp only [List.mem_map] at hr
  obtain ⟨xn, hxn, rfl⟩ := hr
  simpa using ((h.2 xb hxb).2 xn hxn).1

lemma slice4_length (X : Tensor4) (t : ℕ) :
    (slice4 X t).length = X.length := by
  simp [slice4]

lemma slice4_headI_length (X : Tensor4) (t : ℕ) :
    (slice4 X t).headI.length = X.headI.length := by
  cases X with
  | nil => rfl
  | cons a l => simp [slice4]

lemma shape4dim3_of_rect {B N F T : ℕ} {X : Tensor4} (h : Rect4 B N F T X)
    (hB : 0 < B) (hN : 0 < N) (hF : 0 < F) : shape4dim3 X = T := by
  have hX : X ≠ [] := by
    intro he
    rw [he] at h
    exact Nat.lt_irrefl 0 (by simpa [← h.1] using hB)
  have h1 : Rect3 N F T X.headI := h.2 _ (headI_mem_of_ne hX)
  have hX1 : X.headI ≠ [] := by
    intro he
    rw [he] at h1
    exact Nat.lt_irrefl 0 (by simpa [← h1.1] using hN)
  have h2 : Rect2 F T X.headI.headI := h1.2 _ (headI_mem_of_ne hX1)
  have hX2 : X.headI.headI ≠ [] := by
    intro he
    rw [he] at h2
    exact Nat.lt_irrefl 0 (by simpa [← h2.1] using hF)
  exact h2.2 _ (headI_mem_of_ne hX2)

lemma map3_rect {B N F : ℕ} {t : Tensor3} (h : Rect3 B N F t)
    (f : ℚ → ℚ) : Rect3 B N F (map3 f t) := by
  refine ⟨by simp [map3, h.1], ?_⟩
  intro u hu
  simp only [map3, List.mem_map] at hu
  obtain ⟨xu, hxu, rfl⟩ := hu
  refine ⟨by simpa using (h.2 xu hxu).1, ?_⟩
  intro r hr
  simp only [List.mem_map] at hr
  obtain ⟨xr, hxr, rfl⟩ := hr
  simpa using (h.2 xu hxu).2 xr hxr

lemma zipWith_append_rect {N F1 F2 : ℕ} :
    ∀ {x h : Tensor2}, Rect2 N F1 x → Rect2 N F2 h →
      Rect2 N (F1 + F2) (List.zipWith (fun xr hr => xr ++ hr) x h) := by
  intro x
  induction x generalizing N with
  | nil =>
      intro h hx hh
      obtain rfl : N = 0 := by simpa using hx.1.symm
      exact ⟨by simp, by simp⟩
  | cons a x' ih =>
      intro h hx hh
      cases h with
      | nil =>
          exfalso
          have h1 : x'.length + 1 = N := by simpa using hx.1
          have h2 : (0 : ℕ) = N := by simpa using hh.1
          omega
      | cons b h' =>
          have h1 : x'.length + 1 = N := by simpa using hx.1
          have h2 : h'.length + 1 = N := by simpa using hh.1
          have hx' : Rect2 x'.length F1 x' :=
            ⟨rfl, fun r hr => hx.2 r (List.mem_cons_of_mem _ hr)⟩
          have hh' : Rect2 x'.length F2 h' :=
            ⟨by omega, fun r hr => hh.2 r (List.mem_cons_of_mem _ hr)⟩
          have ihr := ih hx' hh'
          constructor
          · simp only [List.zipWith_cons_cons, List.length_cons, ihr.1]
            exact h1
          · intro r hr
            simp only [List.zipWith_cons_cons] at hr
            rcases List.mem_cons.mp hr with h | h
            · subst h
              rw [List.length_append, hx.2 a (List.mem_cons_self _ _),
                hh.2 b (List.mem_cons_self _ _)]
            · exact ihr.2 r h

lemma cat3_rect {B N F1 F2 : ℕ} :
    ∀ {x h : Tensor3}, Rect3 B N F1 x → Rect3 B N F2 h →
      Rect3 B N (F1 + F2) (cat3 x h) := by
  intro x
  induction x generalizing B with
  | nil =>
      intro h hx hh
      obtain rfl : B = 0 := by simpa using hx.1.symm
      exact ⟨by simp [cat3], by simp [cat3]⟩
  | cons a x' ih =>
      intro h hx hh
      cases h with
      | nil =>
          exfalso
          have h1 : x'.length + 1 = B := by simpa using hx.1
          have h2 : (0 : ℕ) = B := by simpa using hh.1
          omega
      | cons b h' =>
          have h1 : x'.length + 1 = B := by simpa using hx.1
          have h2 : h'.length + 1 = B := by simpa using hh.1
          have hx' : Rect3 x'.length N F1 x' :=
            ⟨rfl, fun u hu => hx.2 u (List.mem_cons_of_mem _ hu)⟩
          have hh' : Rect3 x'.length N F2 h' :=
            ⟨by omega, fun u hu => hh.2 u (List.mem_cons_of_mem _ hu)⟩
          have ihr := ih hx' hh'
          constructor
          · simp only [cat3, List.zipWith_cons_cons, List.length_cons]
            simp only [cat3] at ihr
            rw [ihr.1]
            exact h1
          · intro u hu
            simp only [cat3, List.zipWith_cons_cons] at hu
            rcases List.mem_cons.mp hu with h | h
            · subst h
              exact zipWith_append_rect (hx.2 a (List.mem_cons_self _ _))
                (hh.2 b (List.mem_cons_self _ _))
            · exact ihr.2 u h

lemma dropout3_rect {B N F : ℕ} {t : Tensor3} (h : Rect3 B N F t)
    (p : ℚ) (tr : Bool) (mask : DropMask) :
    Rect3 B N F (dropout3 p tr mask t) := by
  cases tr with
  | false => simpa [dropout3] using h
  | true =>
      constructor
      · simp only [dropout3, if_pos, List.length_map, List.length_range]
        exact h.1
      · intro u hu
        simp only [dropout3, if_pos, List.mem_map, List.mem_range] at hu
        obtain ⟨b, hb, rfl⟩ := hu
        rw [h.1] at hb
        have hrow : Rect2 N F (t.getD b []) := Rect3_getD h hb
        constructor
        · simp only [List.length_map, List.length_range]
          exact hrow.1
        · intro r hr
          simp only [List.mem_map, List.mem_range] at hr
          obtain ⟨n, hn, rfl⟩ := hr
          rw [hrow.1] at hn
          simp only [List.length_map, List.length_range]
          exact Rect2_getD hrow hn

lemma flatten_length_rect {α : Type} {l : List (List α)} {N : ℕ}
    (h : ∀ u ∈ l, u.length = N) : l.flatten.length = l.length * N := by
  induction l with
  | nil => simp
  | cons a l' ih =>
      simp only [List.flatten_cons, List.length_append, List.length_cons]
      rw [h a (List.mem_cons_self _ _),
        ih (fun u hu => h u (List.mem_cons_of_mem _ hu))]
      ring

lemma flatten_rect4 {B N T W : ℕ} {t : Tensor4} (h : Rect4 B N T W t) :
    Rect3 (B * N) T W t.flatten := by
  constructor
  · rw [flatten_length_rect (fun u hu => (h.2 u hu).1), h.1]
  · intro u hu
    rw [List.mem_flatten] at hu
    obtain ⟨s, hs, hu⟩ := hu
    exact (h.2 s hs).2 u hu

lemma stackSeq_rect {B N W : ℕ} {outs : List Tensor3}
    (h : ∀ o ∈ outs, Rect3 B N W o) :
    Rect4 B N outs.length W (stackSeq B N outs) := by
  refine ⟨by simp [stackSeq], ?_⟩
  intro u hu
  simp only [stackSeq, List.mem_map, List.mem_range] at hu
  obtain ⟨b, hb, rfl⟩ := hu
  refine ⟨by simp, ?_⟩
  intro v hv
  simp only [List.mem_map, List.mem_range] at hv
  obtain ⟨n, hn, rfl⟩ := hv
  refine ⟨by simp, ?_⟩
  intro r hr
  simp only [List.mem_map] at hr
  obtain ⟨o, ho, rfl⟩ := hr
  exact Rect2_getD (Rect3_getD (h o ho) hb) hn

lemma assembleGruIn_pos {B N W : ℕ} {outs : List Tensor3}
    (h : ∀ o ∈ outs, Rect3 B N W o) :
    assembleGruIn B N W outs = some (stackSeq B N outs) := by
  unfold assembleGruIn
  exact if_pos h

lemma lastTimeStep_pos {g : Tensor3} (h : ∀ s ∈ g, s ≠ []) :
    lastTimeStep g = some (g.map (fun s => s.getLastD [])) := by
  unfold lastTimeStep
  exact if_pos h

lemma linear_run_length (l : LinearMod) (x : Tensor1) :
    (l.run x).length = min l.weight.length l.bias.length := by
  simp [LinearMod.run]

lemma mkLinear_run_length (I O : ℕ) (w : ℕ → ℕ → ℚ) (b : ℕ → ℚ)
    (x : Tensor1) : ((mkLinear I O w b).run x).length = O := by
  simp [linear_run_length, mkLinear]

lemma reshapeTo4_pos {B N P : ℕ} {flat : Tensor1} (h1 : B * N * P ≠ 0)
    (h2 : flat.length ≠ 0) (h3 : B * N * P ∣ flat.length) :
    reshapeTo4 B N P flat = some (reshapeBody B N P flat) := by
  unfold reshapeTo4
  exact if_pos ⟨h1, h2, h3⟩

lemma reshapeBody_rect {B N P k : ℕ} {flat : Tensor1}
    (h : flat.length = B * N * P * k) (hd : 0 < B * N * P) :
    Rect4 B N P k (reshapeBody B N P flat) := by
  have hk : flat.length / (B * N * P) = k := by
    rw [h]
    exact Nat.mul_div_cancel_left k hd
  refine ⟨by simp [reshapeBody], ?_⟩
  intro u hu
  simp only [reshapeBody, List.mem_map, List.mem_range] at hu
  obtain ⟨b, hb, rfl⟩ := hu
  refine ⟨by simp, ?_⟩
  intro v hv
  simp only [List.mem_map, List.mem_range] at hv
  obtain ⟨n, hn, rfl⟩ := hv
  refine ⟨by simp, ?_⟩
  intro r hr
  simp only [List.mem_map, List.mem_range] at hr
  obtain ⟨p, hp, rfl⟩ := hr
  simp [hk]

lemma squeeze3_inl {B N P : ℕ} {t4 : Tensor4} (h : Rect4 B N P 1 t4)
    (hB : 0 < B) (hN : 0 < N) (hP : 0 < P) :
    ∃ t3, squeeze3 t4 = Sum.inl t3 ∧ Rect3 B N P t3 := by
  have hs : shape4dim3 t4 = 1 := shape4dim3_of_rect h hB hN hP
  refine ⟨t4.map (fun u => u.map (fun v => v.map (fun r => r.headI))),
    ?_, ?_⟩
  · unfold squeeze3
    exact if_pos hs
  · refine ⟨by simp [h.1], ?_⟩
    intro u hu
    simp only [List.mem_map] at hu
    obtain ⟨xu, hxu, rfl⟩ := hu
    have h2 := h.2 xu hxu
    refine ⟨by simp [h2.1], ?_⟩
    intro r hr
    simp only [List.mem_map] at hr
    obtain ⟨xr, hxr, rfl⟩ := hr
    simpa using (h2.2 xr hxr).1

lemma tail_shape {g : GRUMod} (hg : GRUShapeOK g.run) {fc : LinearMod}
    {B N P T W : ℕ} (hw : fc.weight.length = P) (hb : fc.bias.length = P)
    (hB : 0 < B) (hN : 0 < N) (hP : 0 < P) (hT : 0 < T)
    {gruIn : Tensor4} (hIn : Rect4 B N T W gruIn) :
    ∃ t3, recurrentLinearTail g fc B N P gruIn = some (Sum.inl t3) ∧
      Rect3 B N P t3 := by
  have hflat : Rect3 (B * N) T W gruIn.flatten := flatten_rect4 hIn
  have hne : ∀ s ∈ gruIn.flatten, s ≠ [] := by
    intro s hs he
    have hlen := (hflat.2 s hs).1
    rw [he] at hlen
    simp only [List.length_nil] at hlen
    omega
  have hgl := (hg gruIn.flatten).1
  have hgne := (hg gruIn.flatten).2 hne
  have hlast := lastTimeStep_pos hgne
  have hrows : ∀ r ∈ ((g.run gruIn.flatten).map
      (fun s => s.getLastD [])).map fc.run, r.length = P := by
    intro r hr
    simp only [List.mem_map] at hr
    obtain ⟨s, hs, rfl⟩ := hr
    rw [linear_run_length, hw, hb]
    exact Nat.min_self P
  have hflatlen : (((g.run gruIn.flatten).map
      (fun s => s.getLastD [])).map fc.run).flatten.length = B * N * P := by
    rw [flatten_length_rect hrows]
    simp only [List.length_map, hgl, hflat.1]
  have hdpos : 0 < B * N * P := by positivity
  obtain ⟨t3, hsq, hrect⟩ := squeeze3_inl
    (reshapeBody_rect (by rw [hflatlen, Nat.mul_one]) hdpos) hB hN hP
  refine ⟨t3, ?_, hrect⟩
  unfold recurrentLinearTail view4
  rw [hlast, Option.some_bind,
    reshapeTo4_pos (Nat.pos_iff_ne_zero.mp hdpos)
      (by rw [hflatlen]; exact Nat.pos_iff_ne_zero.mp hdpos)
      (by rw [hflatlen]),
    Option.map_some', hsq]

lemma DenseGCNGRU_forward_factor (m : DenseGCNGRU) (X : Tensor4)
    (ei : EdgeIndex) (ew : Option Tensor1) (masks : ℕ → DropMask) :
    m.forward X ei ew masks = (denseSpatialSeq m X ei ew masks).bind
      (recurrentLinearTail m.gru m.fc X.length X.headI.length m.periods) := by
  unfold DenseGCNGRU.forward denseSpatialSeq recurrentLinearTail
  rw [Option.bind_assoc]

lemma GCNGRU_forward_factor (m : GCNGRU) (X : Tensor4) (ei : EdgeIndex)
    (ew : Option Tensor1) :
    m.forward X ei ew = (gcnSpatialSeq m X ei ew).bind
      (recurrentLinearTail m.gru m.fc X.length X.headI.length m.periods) := by
  unfold GCNGRU.forward gcnSpatialSeq recurrentLinearTail
  rw [Option.bind_assoc]

lemma GRU_only_forward_factor (m : GRU_only) (X : Tensor4)
    (ei : Option EdgeIndex) (ew : Option Tensor1) :
    m.forward X ei ew =
      (reshapeTo4 X.length X.headI.length m.periods (flattenAll X)).bind
        (recurrentLinearTail m.gru m.fc X.length X.headI.length m.periods) := by
  unfold GRU_only.forward recurrentLinearTail
  rfl

lemma KLayerGCNConv_init_length (K ic oc nd : ℕ) (imp ca asl : Bool)
    (fresh : ℕ → GCNRun) :
    (KLayerGCNConv.init K ic oc nd imp ca asl fresh).convs.length = K := by
  simp [KLayerGCNConv.init]

lemma KLayerGCNConv_init_headI {K : ℕ} (ic oc nd : ℕ) (imp ca asl : Bool)
    (fresh : ℕ → GCNRun) (hK : 0 < K) :
    (KLayerGCNConv.init K ic oc nd imp ca asl fresh).convs.headI =
      ⟨ic, oc, nd, imp, ca, asl, fresh 0⟩ := by
  obtain ⟨m, rfl⟩ := Nat.exists_eq_succ_of_ne_zero (Nat.pos_iff_ne_zero.mp hK)
  unfold KLayerGCNConv.init
  rw [List.range_succ_eq_map]
  simp

lemma KLayerGCNConv_init_forward {K ic oc nd : ℕ} {imp ca asl : Bool}
    {fresh : ℕ → GCNRun} (hK : 0 < K) (x : Tensor3) (ei : EdgeIndex)
    (ew : Option Tensor1) :
    (KLayerGCNConv.init K ic oc nd imp ca asl fresh).forward x ei ew =
      some (fresh 0 x ei ew) := by
  obtain ⟨m, rfl⟩ := Nat.exists_eq_succ_of_ne_zero (Nat.pos_iff_ne_zero.mp hK)
  unfold KLayerGCNConv.init KLayerGCNConv.forward
  rw [List.range_succ_eq_map]
  simp [GCNConv.forward]

/-! Claim theorems. -/

/-- C1: for every K ≥ 1 and every input, KLayerGCNConv.forward applies
only the first of its K stacked layers: the constructor builds all K
layers, the forward result is conv 0 applied once (the loop returns in
its first iteration), and the result does not depend on the layers
1..K-1 (two layer stacks agreeing on layer 0 give the same forward). -/
theorem claimC1 (K ic oc nd : ℕ) (imp ca asl : Bool)
    (fresh fresh2 : ℕ → GCNRun) (x : Tensor3) (ei : EdgeIndex)
    (ew : Option Tensor1) (hK : 1 ≤ K) (hf : fresh2 0 = fresh 0) :
    (KLayerGCNConv.init K ic oc nd imp ca asl fresh).convs.length = K ∧
    (KLayerGCNConv.init K ic oc nd imp ca asl fresh).forward x ei ew =
      some ((KLayerGCNConv.init K ic oc nd imp ca asl
        fresh).convs.headI.forward x ei ew) ∧
    (KLayerGCNConv.init K ic oc nd imp ca asl fresh2).forward x ei ew =
      (KLayerGCNConv.init K ic oc nd imp ca asl fresh).forward x ei ew := by
  refine ⟨KLayerGCNConv_init_length K ic oc nd imp ca asl fresh, ?_, ?_⟩
  · rw [KLayerGCNConv_init_forward hK,
      KLayerGCNConv_init_headI ic oc nd imp ca asl fresh hK]
    rfl
  · rw [KLayerGCNConv_init_forward hK, KLayerGCNConv_init_forward hK, hf]

/-- Witness for C1 at K = 3 and a concrete input. -/
theorem claimC1_witness :
    1 ≤ 3 ∧
    (fun k : ℕ => if k = 0 then (fun x _ _ => x : GCNRun)
      else (fun _ _ _ => [] : GCNRun)) 0 =
      (fun _ : ℕ => (fun x _ _ => x : GCNRun)) 0 ∧
    ((KLayerGCNConv.init 3 2 128 1 true false true
        (fun _ : ℕ => (fun x _ _ => x : GCNRun))).convs.length = 3 ∧
     (KLayerGCNConv.init 3 2 128 1 true false true
        (fun _ : ℕ => (fun x _ _ => x : GCNRun))).forward [[[1]]] [] none =
       some ((KLayerGCNConv.init 3 2 128 1 true false true
        (fun _ : ℕ => (fun x _ _ => x : GCNRun))).convs.headI.forward
          [[[1]]] [] none) ∧
     (KLayerGCNConv.init 3 2 128 1 true false true
        (fun k : ℕ => if k = 0 then (fun x _ _ => x : GCNRun)
          else (fun _ _ _ => [] : GCNRun))).forward [[[1]]] [] none =
       (KLayerGCNConv.init 3 2 128 1 true false true
        (fun _ : ℕ => (fun x _ _ => x : GCNRun))).forward [[[1]]] [] none) :=
  ⟨by decide, rfl,
    claimC1 3 2 128 1 true false true
      (fun _ : ℕ => (fun x _ _ => x : GCNRun))
      (fun k : ℕ => if k = 0 then (fun x _ _ => x : GCNRun)
        else (fun _ _ _ => [] : GCNRun))
      [[[1]]] [] none (by decide) rfl⟩

set_option maxRecDepth 4000 in
/-- C2 (code evaluation): in TGCN_2.forward the loop never feeds the
cell's returned hidden state back (H stays the constructor argument), so
the forecast is a function of the LAST time slice only.  With periods = 2
and a cell that genuinely depends on its input slice, the two windows
[[[[5, 7]]]] and [[[[9, 7]]]] (which differ in slice 0 and agree in
slice 1) produce the same forecast, equal to the linear layer applied to
the cell output on the final slice alone; this contradicts the claimed
temporal aggregation across time steps. -/
theorem claimC2_code_eval :
    (TGCN_2.init 1 2 1 false false true (fun x _ _ _ => x) (fun _ _ => 1)
        (fun _ => 0)).forward [[[[5, 7]]]] [] none none =
      (TGCN_2.init 1 2 1 false false true (fun x _ _ _ => x) (fun _ _ => 1)
        (fun _ => 0)).forward [[[[9, 7]]]] [] none none ∧
    (TGCN_2.init 1 2 1 false false true (fun x _ _ _ => x) (fun _ _ => 1)
        (fun _ => 0)).forward [[[[5, 7]]]] [] none none =
      some ((slice4 [[[[5, 7]]]] 1).map (fun u => u.map
        (mkLinear 64 2 (fun _ _ => 1) (fun _ => 0)).run)) ∧
    slice4 [[[[5, 7]]]] 0 ≠ slice4 [[[[9, 7]]]] 0 :=
  ⟨rfl, rfl, by decide⟩

set_option maxRecDepth 8000 in
set_option maxHeartbeats 4000000 in
/-- C3 (counterexample): a freshly constructed DenseGCNGRU is in training
mode, so the dropout layer of its dense block is active; two calls on the
same model with the same (X, edge_index, edge_weight) but different
dropout draws return different outputs, refuting determinism. -/
theorem claimC3_counterexample :
    (DenseGCNGRU.init 2 1 1 false false true
        (fun _ x _ _ => x.map (fun u => u.map
          (fun _ => List.replicate 128 (1 : ℚ))))
        id (fun _ j => if j = 0 then 1 else 0) (fun _ => 0) true).forward
      [[[[1], [1]]]] [] none (fun _ _ _ _ => true) ≠
    (DenseGCNGRU.init 2 1 1 false false true
        (fun _ x _ _ => x.map (fun u => u.map
          (fun _ => List.replicate 128 (1 : ℚ))))
        id (fun _ j => if j = 0 then 1 else 0) (fun _ => 0) true).forward
      [[[[1], [1]]]] [] none (fun _ _ _ f => f != 0) := by
  have h1 : (DenseGCNGRU.init 2 1 1 false false true
      (fun _ x _ _ => x.map (fun u => u.map
        (fun _ => List.replicate 128 (1 : ℚ))))
      id (fun _ j => if j = 0 then 1 else 0) (fun _ => 0) true).forward
      [[[[1], [1]]]] [] none (fun _ _ _ _ => true) =
      some (Sum.inl [[[10 / 9]]]) := by
    norm_num [DenseGCNGRU.forward, DenseGCNGRU.stepOut, DenseGCNGRU.init,
      mapRange, sliceLastDim, slice4, shape4dim3, DeepGCNLayer.forward,
      KLayerGCNConv.init, KLayerGCNConv.forward, GCNConv.forward, map3,
      cat3, dropout3, leakyReLU, assembleGruIn, stackSeq, lastTimeStep,
      view4, reshapeTo4, reshapeBody, squeeze3, LinearMod.run, mkLinear,
      dot, Rect3, Rect2, List.range_succ, List.replicate_succ]
  have h2 : (DenseGCNGRU.init 2 1 1 false false true
      (fun _ x _ _ => x.map (fun u => u.map
        (fun _ => List.replicate 128 (1 : ℚ))))
      id (fun _ j => if j = 0 then 1 else 0) (fun _ => 0) true).forward
      [[[[1], [1]]]] [] none (fun _ _ _ f => f != 0) =
      some (Sum.inl [[[0]]]) := by
    norm_num [DenseGCNGRU.forward, DenseGCNGRU.stepOut, DenseGCNGRU.init,
      mapRange, sliceLastDim, slice4, shape4dim3, DeepGCNLayer.forward,
      KLayerGCNConv.init, KLayerGCNConv.forward, GCNConv.forward, map3,
      cat3, dropout3, leakyReLU, assembleGruIn, stackSeq, lastTimeStep,
      view4, reshapeTo4, reshapeBody, squeeze3, LinearMod.run, mkLinear,
      dot, Rect3, Rect2, List.range_succ, List.replicate_succ]
  rw [h1, h2]
  intro hcontra
  simp only [Option.some.injEq, Sum.inl.injEq] at hcontra
  norm_num at hcontra

/-- C3 (amended): every model's forward is a pure function of its inputs,
learned parameters and the dropout randomness; with the module in eval
mode (training = false) DenseGCNGRU.forward does not read the dropout
mask, so two calls with identical (X, edge_index, edge_weight) return
identical outputs. -/
theorem claimC3_amended (ic P bs : ℕ) (imp ca asl : Bool)
    (fresh : ℕ → GCNRun) (gruRun : Tensor3 → Tensor3) (fcw : ℕ → ℕ → ℚ)
    (fcb : ℕ → ℚ) (X : Tensor4) (ei : EdgeIndex) (ew : Option Tensor1)
    (masks1 masks2 : ℕ → DropMask) :
    (DenseGCNGRU.init ic P bs imp ca asl fresh gruRun fcw fcb
      false).forward X ei ew masks1 =
    (DenseGCNGRU.init ic P bs imp ca asl fresh gruRun fcw fcb
      false).forward X ei ew masks2 := by
  have hstep : ∀ t, t < shape4dim3 X →
      (DenseGCNGRU.init ic P bs imp ca asl fresh gruRun fcw fcb
        false).stepOut X ei ew masks1 t =
      (DenseGCNGRU.init ic P bs imp ca asl fresh gruRun fcw fcb
        false).stepOut X ei ew masks2 t := by
    intro t ht
    unfold DenseGCNGRU.stepOut DeepGCNLayer.forward
    simp [DenseGCNGRU.init, dropout3]
  unfold DenseGCNGRU.forward
  rw [mapRange_congr hstep]

/-- C5: GRU_only.forward never reads edge_index or edge_weight, so its
output is the same for any two values of either argument (including
None). -/
theorem claimC5 (ic P bs : ℕ) (imp ca asl : Bool)
    (gruRun : Tensor3 → Tensor3) (fcw : ℕ → ℕ → ℚ) (fcb : ℕ → ℚ)
    (X : Tensor4) (ei1 ei2 : Option EdgeIndex) (ew1 ew2 : Option Tensor1) :
    (GRU_only.init ic P bs imp ca asl gruRun fcw fcb).forward X ei1 ew1 =
      (GRU_only.init ic P bs imp ca asl gruRun fcw fcb).forward X ei2 ew2 :=
  rfl

/-- C9: with K = 0, KLayerGCNConv builds an empty layer stack and forward
returns Python None (modelled none) on every input: the loop body never
runs and the function falls through. -/
theorem claimC9 (ic oc nd : ℕ) (imp ca asl : Bool) (fresh : ℕ → GCNRun)
    (x : Tensor3) (ei : EdgeIndex) (ew : Option Tensor1) :
    (KLayerGCNConv.init 0 ic oc nd imp ca asl fresh).convs.length = 0 ∧
    (KLayerGCNConv.init 0 ic oc nd imp ca asl fresh).forward x ei ew =
      none :=
  ⟨rfl, rfl⟩

/-- C6: the dense residual block of DenseGCNGRU concatenates the
graph-convolution output with the block's input instead of replacing it:
the block output is dropout(cat(x, act(conv(x)))) of per-node feature
dimension in_channels + 128, the GRU's declared input size is the
hard-coded 130, and the two agree exactly when in_channels = 2. -/
theorem claimC6 (ic P bs : ℕ) (imp ca asl : Bool) (fresh : ℕ → GCNRun)
    (gruRun : Tensor3 → Tensor3) (fcw : ℕ → ℕ → ℚ) (fcb : ℕ → ℚ)
    (tr : Bool) (x : Tensor3) (ei : EdgeIndex) (ew : Option Tensor1)
    (mask : DropMask) (B N : ℕ)
    (hx : Rect3 B N ic x) (hc : Rect3 B N 128 (fresh 0 x ei ew)) :
    (∃ h, (DenseGCNGRU.init ic P bs imp ca asl fresh gruRun fcw fcb
        tr).densegcn.forward x ei ew mask = some h ∧
      h = dropout3 (1 / 10) tr mask
        (cat3 x (map3 (leakyReLU (1 / 100)) (fresh 0 x ei ew))) ∧
      Rect3 B N (ic + 128) h) ∧
    (DenseGCNGRU.init ic P bs imp ca asl fresh gruRun fcw fcb
      tr).gru.inputSize = 130 ∧
    (ic = 2 → ic + 128 =
      (DenseGCNGRU.init ic P bs imp ca asl fresh gruRun fcw fcb
        tr).gru.inputSize) := by
  refine ⟨⟨dropout3 (1 / 10) tr mask
      (cat3 x (map3 (leakyReLU (1 / 100)) (fresh 0 x ei ew))),
    ?_, rfl, dropout3_rect (cat3_rect hx (map3_rect hc _)) _ _ _⟩,
    rfl, ?_⟩
  · unfold DeepGCNLayer.forward
    simp only [DenseGCNGRU.init]
    rw [KLayerGCNConv_init_forward (by norm_num)]
    rfl
  · intro h2
    subst h2
    rfl

set_option maxRecDepth 8000 in
/-- Witness for C6 at in_channels = 2 and a concrete input. -/
theorem claimC6_witness :
    Rect3 1 1 2 [[[1, 1]]] ∧
    Rect3 1 1 128 (witConv 0 [[[1, 1]]] [] none) ∧
    ((∃ h, (DenseGCNGRU.init 2 1 1 false false true witConv witGRU
        (fun _ _ => 0) (fun _ => 0) true).densegcn.forward [[[1, 1]]]
          [] none (fun _ _ _ => true) = some h ∧
      h = dropout3 (1 / 10) true (fun _ _ _ => true)
        (cat3 [[[1, 1]]] (map3 (leakyReLU (1 / 100))
          (witConv 0 [[[1, 1]]] [] none))) ∧
      Rect3 1 1 (2 + 128) h) ∧
     (DenseGCNGRU.init 2 1 1 false false true witConv witGRU
        (fun _ _ => 0) (fun _ => 0) true).gru.inputSize = 130 ∧
     (2 = 2 → 2 + 128 =
       (DenseGCNGRU.init 2 1 1 false false true witConv witGRU
          (fun _ _ => 0) (fun _ => 0) true).gru.inputSize)) :=
  ⟨by decide, by decide,
    claimC6 2 1 1 false false true witConv witGRU (fun _ _ => 0)
      (fun _ => 0) true [[[1, 1]]] [] none (fun _ _ _ => true) 1 1
      (by decide) (by decide)⟩

/-- C8: GCNGRU has the same recurrent/linear tail as DenseGCNGRU: both
forwards factor through the one recurrentLinearTail function (flatten,
GRU, last time step, Linear, view, squeeze), both GRUs are 2-layer with
hidden size 64, and with the same learned parameters the two Linear
projections are the same module; the models differ only in the
per-time-step spatial part (dense block, or plain stacked GCN block). -/
theorem claimC8 (ic P bs : ℕ) (imp ca asl : Bool)
    (freshD freshG : ℕ → GCNRun) (gruRunD gruRunG : Tensor3 → Tensor3)
    (fcw : ℕ → ℕ → ℚ) (fcb : ℕ → ℚ) (tr : Bool) (X : Tensor4)
    (ei : EdgeIndex) (ew : Option Tensor1) (masks : ℕ → DropMask) :
    (DenseGCNGRU.init ic P bs imp ca asl freshD gruRunD fcw fcb tr).forward
        X ei ew masks =
      (denseSpatialSeq (DenseGCNGRU.init ic P bs imp ca asl freshD gruRunD
          fcw fcb tr) X ei ew masks).bind
        (recurrentLinearTail
          (DenseGCNGRU.init ic P bs imp ca asl freshD gruRunD fcw fcb
            tr).gru
          (DenseGCNGRU.init ic P bs imp ca asl freshD gruRunD fcw fcb
            tr).fc
          X.length X.headI.length P) ∧
    (GCNGRU.init ic P bs imp ca asl freshG gruRunG fcw fcb).forward
        X ei ew =
      (gcnSpatialSeq (GCNGRU.init ic P bs imp ca asl freshG gruRunG fcw
          fcb) X ei ew).bind
        (recurrentLinearTail
          (GCNGRU.init ic P bs imp ca asl freshG gruRunG fcw fcb).gru
          (GCNGRU.init ic P bs imp ca asl freshG gruRunG fcw fcb).fc
          X.length X.headI.length P) ∧
    (DenseGCNGRU.init ic P bs imp ca asl freshD gruRunD fcw fcb
      tr).gru.numLayers = 2 ∧
    (DenseGCNGRU.init ic P bs imp ca asl freshD gruRunD fcw fcb
      tr).gru.hiddenSize = 64 ∧
    (GCNGRU.init ic P bs imp ca asl freshG gruRunG fcw
      fcb).gru.numLayers = 2 ∧
    (GCNGRU.init ic P bs imp ca asl freshG gruRunG fcw
      fcb).gru.hiddenSize = 64 ∧
    (DenseGCNGRU.init ic P bs imp ca asl freshD gruRunD fcw fcb tr).fc =
      (GCNGRU.init ic P bs imp ca asl freshG gruRunG fcw fcb).fc :=
  ⟨DenseGCNGRU_forward_factor _ X ei ew masks,
    GCNGRU_forward_factor _ X ei ew, rfl, rfl, rfl, rfl, rfl⟩

/-- C4: DenseGCNGRU.forward computes, for every time step t below
X.shape[3], the dense block applied to X[:, :, :, t]; stacks these
per-step outputs into the GRU input sequence; feeds it through the
2-layer GRU (hidden size 64); applies the Linear layer to the GRU output
at the final time step; and finishes with view(B, N, periods, -1) and
squeeze(dim=3).  The hypotheses say each per-step block application
succeeds with a (B, N, 130) output, which is what the buffer assignment
requires. -/
theorem claimC4 (ic P bs : ℕ) (imp ca asl : Bool) (fresh : ℕ → GCNRun)
    (gruRun : Tensor3 → Tensor3) (fcw : ℕ → ℕ → ℚ) (fcb : ℕ → ℚ)
    (tr : Bool) (X : Tensor4) (ei : EdgeIndex) (ew : Option Tensor1)
    (masks : ℕ → DropMask)
    (hsome : ∀ t, t < shape4dim3 X →
      ((DenseGCNGRU.init ic P bs imp ca asl fresh gruRun fcw fcb
        tr).stepOut X ei ew masks t).isSome = true)
    (hrect : ∀ t, t < shape4dim3 X →
      Rect3 X.length X.headI.length 130
        (((DenseGCNGRU.init ic P bs imp ca asl fresh gruRun fcw fcb
          tr).stepOut X ei ew masks t).getD [])) :
    ∃ outs : List Tensor3,
      outs.length = shape4dim3 X ∧
      (∀ t, t < shape4dim3 X →
        (DenseGCNGRU.init ic P bs imp ca asl fresh gruRun fcw fcb
          tr).stepOut X ei ew masks t = some (outs.getD t [])) ∧
      (DenseGCNGRU.init ic P bs imp ca asl fresh gruRun fcw fcb
          tr).forward X ei ew masks =
        (lastTimeStep ((DenseGCNGRU.init ic P bs imp ca asl fresh gruRun
            fcw fcb tr).gru.run
          (stackSeq X.length X.headI.length outs).flatten)).bind
          (fun lastH =>
            (view4 X.length X.headI.length P
              (lastH.map (DenseGCNGRU.init ic P bs imp ca asl fresh gruRun
                fcw fcb tr).fc.run)).map squeeze3) ∧
      (DenseGCNGRU.init ic P bs imp ca asl fresh gruRun fcw fcb
        tr).gru.numLayers = 2 ∧
      (DenseGCNGRU.init ic P bs imp ca asl fresh gruRun fcw fcb
        tr).gru.hiddenSize = 64 := by
  set m := DenseGCNGRU.init ic P bs imp ca asl fresh gruRun fcw fcb tr
    with hm
  refine ⟨(List.range (shape4dim3 X)).map
    (fun t => (m.stepOut X ei ew masks t).getD []), by simp, ?_, ?_,
    rfl, rfl⟩
  · intro t ht
    rw [getD_map_range _ _ ht]
    exact opt_eq_some_getD [] (hsome t ht)
  · have hmr : mapRange (m.stepOut X ei ew masks) (shape4dim3 X) =
        some ((List.range (shape4dim3 X)).map
          (fun t => (m.stepOut X ei ew masks t).getD [])) :=
      mapRange_map_eq (fun t ht => opt_eq_some_getD [] (hsome t ht))
    have hall : ∀ o ∈ (List.range (shape4dim3 X)).map
        (fun t => (m.stepOut X ei ew masks t).getD []),
        Rect3 X.length X.headI.length 130 o := by
      intro o ho
      simp only [List.mem_map, List.mem_range] at ho
      obtain ⟨t, ht, rfl⟩ := ho
      exact hrect t ht
    unfold DenseGCNGRU.forward
    rw [hmr, Option.some_bind, assembleGruIn_pos hall, Option.some_bind]
    rfl

set_option maxRecDepth 8000 in
/-- Witness for C4 at a concrete model and input. -/
theorem claimC4_witness :
    (∀ t, t < shape4dim3 ([[[[1], [1]]]] : Tensor4) →
      ((DenseGCNGRU.init 2 1 1 false false true witConv witGRU
        (fun _ _ => 0) (fun _ => 0) false).stepOut [[[[1], [1]]]] [] none
        (fun _ _ _ _ => true) t).isSome = true) ∧
    (∀ t, t < shape4dim3 ([[[[1], [1]]]] : Tensor4) →
      Rect3 (List.length ([[[[1], [1]]]] : Tensor4))
        (List.length (List.headI ([[[[1], [1]]]] : Tensor4))) 130
        (((DenseGCNGRU.init 2 1 1 false false true witConv witGRU
          (fun _ _ => 0) (fun _ => 0) false).stepOut [[[[1], [1]]]] []
          none (fun _ _ _ _ => true) t).getD [])) ∧
    (∃ outs : List Tensor3,
      outs.length = shape4dim3 ([[[[1], [1]]]] : Tensor4) ∧
      (∀ t, t < shape4dim3 ([[[[1], [1]]]] : Tensor4) →
        (DenseGCNGRU.init 2 1 1 false false true witConv witGRU
          (fun _ _ => 0) (fun _ => 0) false).stepOut [[[[1], [1]]]] []
          none (fun _ _ _ _ => true) t = some (outs.getD t [])) ∧
      (DenseGCNGRU.init 2 1 1 false false true witConv witGRU
          (fun _ _ => 0) (fun _ => 0) false).forward [[[[1], [1]]]] []
          none (fun _ _ _ _ => true) =
        (lastTimeStep ((DenseGCNGRU.init 2 1 1 false false true witConv
            witGRU (fun _ _ => 0) (fun _ => 0) false).gru.run
          (stackSeq (List.length ([[[[1], [1]]]] : Tensor4))
            (List.length (List.headI ([[[[1], [1]]]] : Tensor4)))
            outs).flatten)).bind
          (fun lastH =>
            (view4 (List.length ([[[[1], [1]]]] : Tensor4))
              (List.length (List.headI ([[[[1], [1]]]] : Tensor4))) 1
              (lastH.map (DenseGCNGRU.init 2 1 1 false false true witConv
                witGRU (fun _ _ => 0) (fun _ => 0)
                false).fc.run)).map squeeze3) ∧
      (DenseGCNGRU.init 2 1 1 false false true witConv witGRU
        (fun _ _ => 0) (fun _ => 0) false).gru.numLayers = 2 ∧
      (DenseGCNGRU.init 2 1 1 false false true witConv witGRU
        (fun _ _ => 0) (fun _ => 0) false).gru.hiddenSize = 64) :=
  ⟨by decide, by decide,
    claimC4 2 1 1 false false true witConv witGRU (fun _ _ => 0)
      (fun _ => 0) false [[[[1], [1]]]] [] none (fun _ _ _ _ => true)
      (by decide) (by decide)⟩

/-- C7: for every valid input, DenseGCNGRU, GCNGRU and GRU_only return a
forecast tensor of shape (B, N, periods): the Linear layer built by
Linear(64, periods) maps the hidden state to exactly `periods` values per
node, and the final view(B, N, periods, -1) followed by squeeze(dim=3)
restores the (B, N, periods) layout (the inferred trailing dimension is
1, so squeeze removes it).  The library layers are assumed to meet their
shape contracts: the GCNConv stand-in returns (B, N, 128) outputs on the
slices involved and the GRU returns one sequence per input sequence. -/
theorem claimC7 :
    (∀ (ic P bs : ℕ) (imp ca asl : Bool) (fresh : ℕ → GCNRun)
      (gruRun : Tensor3 → Tensor3) (fcw : ℕ → ℕ → ℚ) (fcb : ℕ → ℚ)
      (tr : Bool) (X : Tensor4) (ei : EdgeIndex) (ew : Option Tensor1)
      (masks : ℕ → DropMask) (B N T : ℕ),
      0 < B → 0 < N → 0 < P → 0 < T → Rect4 B N 2 T X →
      GRUShapeOK gruRun →
      (∀ t, t < T → Rect3 B N 128 (fresh 0 (slice4 X t) ei ew)) →
      ∃ t3, (DenseGCNGRU.init ic P bs imp ca asl fresh gruRun fcw fcb
          tr).forward X ei ew masks = some (Sum.inl t3) ∧
        Rect3 B N P t3) ∧
    (∀ (ic P bs : ℕ) (imp ca asl : Bool) (fresh : ℕ → GCNRun)
      (gruRun : Tensor3 → Tensor3) (fcw : ℕ → ℕ → ℚ) (fcb : ℕ → ℚ)
      (X : Tensor4) (ei : EdgeIndex) (ew : Option Tensor1) (B N F T : ℕ),
      0 < B → 0 < N → 0 < P → 0 < F → P ≤ T → Rect4 B N F T X →
      GRUShapeOK gruRun →
      (∀ t, t < P → Rect3 B N 128 (fresh 0 (slice4 X t) ei ew)) →
      ∃ t3, (GCNGRU.init ic P bs imp ca asl fresh gruRun fcw
          fcb).forward X ei ew = some (Sum.inl t3) ∧
        Rect3 B N P t3) ∧
    (∀ (ic P bs : ℕ) (imp ca asl : Bool) (gruRun : Tensor3 → Tensor3)
      (fcw : ℕ → ℕ → ℚ) (fcb : ℕ → ℚ) (X : Tensor4)
      (ei : Option EdgeIndex) (ew : Option Tensor1) (B N F T : ℕ),
      0 < B → 0 < N → 0 < P → 0 < F → 0 < T → Rect4 B N F T X →
      GRUShapeOK gruRun → F * T = P * ic →
      ∃ t3, (GRU_only.init ic P bs imp ca asl gruRun fcw fcb).forward X
          ei ew = some (Sum.inl t3) ∧
        Rect3 B N P t3) := by
  refine ⟨?_, ?_, ?_⟩
  · -- DenseGCNGRU
    intro ic P bs imp ca asl fresh gruRun fcw fcb tr X ei ew masks B N T
      hB hN hP hT hX hg hc
    set m := DenseGCNGRU.init ic P bs imp ca asl fresh gruRun fcw fcb tr
      with hm
    have hXB : X.length = B := hX.1
    have hXne : X ≠ [] := by
      intro he
      rw [he] at hXB
      simp only [List.length_nil] at hXB
      omega
    have hXN : X.headI.length = N := (hX.2 _ (headI_mem_of_ne hXne)).1
    have hdim : shape4dim3 X = T := shape4dim3_of_rect hX hB hN
      (by norm_num)
    have hstep : ∀ t, t < T → m.stepOut X ei ew masks t =
        some (dropout3 (1 / 10) tr (masks t) (cat3 (slice4 X t)
          (map3 (leakyReLU (1 / 100)) (fresh 0 (slice4 X t) ei ew)))) := by
      intro t ht
      unfold DenseGCNGRU.stepOut sliceLastDim
      rw [hdim, if_pos ht, Option.some_bind]
      unfold DeepGCNLayer.forward
      simp only [hm, DenseGCNGRU.init]
      rw [KLayerGCNConv_init_forward (by norm_num)]
      rfl
    have houts : mapRange (m.stepOut X ei ew masks) (shape4dim3 X) =
        some ((List.range T).map (fun t => dropout3 (1 / 10) tr (masks t)
          (cat3 (slice4 X t) (map3 (leakyReLU (1 / 100))
            (fresh 0 (slice4 X t) ei ew))))) := by
      rw [hdim]
      exact mapRange_map_eq hstep
    have hallrect : ∀ o ∈ (List.range T).map (fun t =>
        dropout3 (1 / 10) tr (masks t) (cat3 (slice4 X t)
          (map3 (leakyReLU (1 / 100)) (fresh 0 (slice4 X t) ei ew)))),
        Rect3 B N 130 o := by
      intro o ho
      simp only [List.mem_map, List.mem_range] at ho
      obtain ⟨t, ht, rfl⟩ := ho
      exact dropout3_rect (cat3_rect (slice4_rect hX t)
        (map3_rect (hc t ht) _)) _ _ _
    rw [DenseGCNGRU_forward_factor]
    unfold denseSpatialSeq
    rw [houts, Option.some_bind, hXB, hXN,
      assembleGruIn_pos hallrect, Option.some_bind]
    have hstack : Rect4 B N T 130 (stackSeq B N ((List.range T).map
        (fun t => dropout3 (1 / 10) tr (masks t) (cat3 (slice4 X t)
          (map3 (leakyReLU (1 / 100)) (fresh 0 (slice4 X t)
            ei ew)))))) := by
      have h1 := stackSeq_rect hallrect
      simpa using h1
    exact tail_shape hg (by simp [hm, DenseGCNGRU.init, mkLinear])
      (by simp [hm, DenseGCNGRU.init, mkLinear]) hB hN hP hT hstack
  · -- GCNGRU
    intro ic P bs imp ca asl fresh gruRun fcw fcb X ei ew B N F T
      hB hN hP hF hPT hX hg hc
    set m := GCNGRU.init ic P bs imp ca asl fresh gruRun fcw fcb with hm
    have hXB : X.length = B := hX.1
    have hXne : X ≠ [] := by
      intro he
      rw [he] at hXB
      simp only [List.length_nil] at hXB
      omega
    have hXN : X.headI.length = N := (hX.2 _ (headI_mem_of_ne hXne)).1
    have hdim : shape4dim3 X = T := shape4dim3_of_rect hX hB hN hF
    have hstep : ∀ t, t < P → m.stepOut X ei ew t =
        some (fresh 0 (slice4 X t) ei ew) := by
      intro t ht
      unfold GCNGRU.stepOut sliceLastDim
      rw [hdim, if_pos (lt_of_lt_of_le ht hPT), Option.some_bind]
      simp only [hm, GCNGRU.init]
      rw [KLayerGCNConv_init_forward (by norm_num)]
    have houts : mapRange (m.stepOut X ei ew) P =
        some ((List.range P).map (fun t => fresh 0 (slice4 X t)
          ei ew)) := mapRange_map_eq hstep
    have hallrect : ∀ o ∈ (List.range P).map (fun t =>
        fresh 0 (slice4 X t) ei ew), Rect3 B N 128 o := by
      intro o ho
      simp only [List.mem_map, List.mem_range] at ho
      obtain ⟨t, ht, rfl⟩ := ho
      exact hc t ht
    rw [GCNGRU_forward_factor]
    unfold gcnSpatialSeq
    rw [show m.periods = P from rfl, houts, Option.some_bind, hXB, hXN,
      assembleGruIn_pos hallrect, Option.some_bind]
    have hstack : Rect4 B N P 128 (stackSeq B N ((List.range P).map
        (fun t => fresh 0 (slice4 X t) ei ew))) := by
      have h1 := stackSeq_rect hallrect
      simpa using h1
    exact tail_shape hg (by simp [hm, GCNGRU.init, mkLinear])
      (by simp [hm, GCNGRU.init, mkLinear]) hB hN hP hP hstack
  · -- GRU_only
    intro ic P bs imp ca asl gruRun fcw fcb X ei ew B N F T
      hB hN hP hF hT hX hg hkk
    set m := GRU_only.init ic P bs imp ca asl gruRun fcw fcb with hm
    have hXB : X.length = B := hX.1
    have hXne : X ≠ [] := by
      intro he
      rw [he] at hXB
      simp only [List.length_nil] at hXB
      omega
    have hXN : X.headI.length = N := (hX.2 _ (headI_mem_of_ne hXne)).1
    have hf1 : Rect3 (B * N) F T X.flatten := flatten_rect4 hX
    have hlen2 : X.flatten.flatten.length = B * N * F := by
      rw [flatten_length_rect (fun u hu => (hf1.2 u hu).1), hf1.1]
    have hrows : ∀ r ∈ X.flatten.flatten, r.length = T := by
      intro r hr
      rw [List.mem_flatten] at hr
      obtain ⟨u, hu, hr⟩ := hr
      exact (hf1.2 u hu).2 r hr
    have hlen3 : (flattenAll X).length = B * N * P * ic := by
      unfold flattenAll
      rw [flatten_length_rect hrows, hlen2]
      calc B * N * F * T = B * N * (F * T) := by ring
        _ = B * N * (P * ic) := by rw [hkk]
        _ = B * N * P * ic := by ring
    have hic : 0 < ic := by
      rcases Nat.eq_zero_or_pos ic with h | h
      · exfalso
        rw [h, Nat.mul_zero] at hkk
        have h2 : 0 < F * T := Nat.mul_pos hF hT
        omega
      · exact h
    have hdpos : 0 < B * N * P := by positivity
    have hne2 : (flattenAll X).length ≠ 0 := by
      rw [hlen3]
      exact Nat.pos_iff_ne_zero.mp (Nat.mul_pos hdpos hic)
    have hdvd : B * N * P ∣ (flattenAll X).length := ⟨ic, hlen3⟩
    rw [GRU_only_forward_factor, hXB, hXN, show m.periods = P from rfl,
      reshapeTo4_pos (Nat.pos_iff_ne_zero.mp hdpos) hne2 hdvd,
      Option.some_bind]
    have hbody : Rect4 B N P ic (reshapeBody B N P (flattenAll X)) :=
      reshapeBody_rect hlen3 hdpos
    exact tail_shape hg (by simp [hm, GRU_only.init, mkLinear])
      (by simp [hm, GRU_only.init, mkLinear]) hB hN hP hP hbody

set_option maxRecDepth 8000 in
/-- Witness for C7: all three conjuncts at concrete models and inputs. -/
theorem claimC7_witness :
    ((0:ℕ) < 1 ∧ (0:ℕ) < 1 ∧ (0:ℕ) < 1 ∧ (0:ℕ) < 1 ∧
      Rect4 1 1 2 1 ([[[[1], [1]]]] : Tensor4) ∧
      GRUShapeOK witGRU ∧
      (∀ t, t < 1 → Rect3 1 1 128 (witConv 0
        (slice4 ([[[[1], [1]]]] : Tensor4) t) [] none)) ∧
      (∃ t3, (DenseGCNGRU.init 2 1 1 false false true witConv witGRU
          (fun _ _ => 0) (fun _ => 0) false).forward [[[[1], [1]]]] []
          none (fun _ _ _ _ => true) = some (Sum.inl t3) ∧
        Rect3 1 1 1 t3)) ∧
    ((0:ℕ) < 1 ∧ (0:ℕ) < 1 ∧ (0:ℕ) < 1 ∧ (0:ℕ) < 1 ∧ (1:ℕ) ≤ 1 ∧
      Rect4 1 1 1 1 ([[[[1]]]] : Tensor4) ∧
      GRUShapeOK witGRU ∧
      (∀ t, t < 1 → Rect3 1 1 128 (witConv 0
        (slice4 ([[[[1]]]] : Tensor4) t) [] none)) ∧
      (∃ t3, (GCNGRU.init 1 1 1 false false true witConv witGRU
          (fun _ _ => 0) (fun _ => 0)).forward [[[[1]]]] [] none =
          some (Sum.inl t3) ∧
        Rect3 1 1 1 t3)) ∧
    ((0:ℕ) < 1 ∧ (0:ℕ) < 1 ∧ (0:ℕ) < 1 ∧ (0:ℕ) < 1 ∧ (0:ℕ) < 1 ∧
      Rect4 1 1 1 1 ([[[[1]]]] : Tensor4) ∧
      GRUShapeOK witGRU ∧ (1:ℕ) * 1 = 1 * 1 ∧
      (∃ t3, (GRU_only.init 1 1 1 false false true witGRU
          (fun _ _ => 0) (fun _ => 0)).forward [[[[1]]]] none none =
          some (Sum.inl t3) ∧
        Rect3 1 1 1 t3)) :=
  ⟨⟨by decide, by decide, by decide, by decide, by decide,
    fun g => ⟨rfl, fun h => h⟩, by decide,
    claimC7.1 2 1 1 false false true witConv witGRU (fun _ _ => 0)
      (fun _ => 0) false [[[[1], [1]]]] [] none (fun _ _ _ _ => true)
      1 1 1 (by decide) (by decide) (by decide) (by decide) (by decide)
      (fun g => ⟨rfl, fun h => h⟩) (by decide)⟩,
   ⟨by decide, by decide, by decide, by decide, by decide, by decide,
    fun g => ⟨rfl, fun h => h⟩, by decide,
    claimC7.2.1 1 1 1 false false true witConv witGRU (fun _ _ => 0)
      (fun _ => 0) [[[[1]]]] [] none 1 1 1 1 (by decide) (by decide)
      (by decide) (by decide) (by decide) (by decide)
      (fun g => ⟨rfl, fun h => h⟩) (by decide)⟩,
   ⟨by decide, by decide, by decide, by decide, by decide, by decide,
    fun g => ⟨rfl, fun h => h⟩, by decide,
    claimC7.2.2 1 1 1 false false true witGRU (fun _ _ => 0)
      (fun _ => 0) [[[[1]]]] none none 1 1 1 1 (by decide) (by decide)
      (by decide) (by decide) (by decide) (by decide)
      (fun g => ⟨rfl, fun h => h⟩) (by decide)⟩⟩

/-- C10: GCNGRU.forward reads only the first `periods` time slices of its
input: it raises (returns none) whenever X.shape[3] < periods, and for any
two inputs agreeing on the slices X[:, :, :, t] for t < periods (with the
same edge_index and edge_weight) the outputs are equal, whatever the
trailing slices hold. -/
theorem claimC10 (ic P bs : ℕ) (imp ca asl : Bool)
    (fresh : ℕ → GCNRun) (gruRun : Tensor3 → Tensor3) (fcw : ℕ → ℕ → ℚ)
    (fcb : ℕ → ℚ) (X1 X2 : Tensor4) (ei : EdgeIndex)
    (ew : Option Tensor1) :
    (shape4dim3 X1 < P →
      (GCNGRU.init ic P bs imp ca asl fresh gruRun fcw fcb).forward X1
        ei ew = none) ∧
    (0 < P → (∀ t, t < P → sliceLastDim X1 t = sliceLastDim X2 t) →
      (GCNGRU.init ic P bs imp ca asl fresh gruRun fcw fcb).forward X1
          ei ew =
        (GCNGRU.init ic P bs imp ca asl fresh gruRun fcw fcb).forward X2
          ei ew) := by
  set m := GCNGRU.init ic P bs imp ca asl fresh gruRun fcw fcb with hm
  constructor
  · intro hlt
    have hnone : m.stepOut X1 ei ew (shape4dim3 X1) = none := by
      unfold GCNGRU.stepOut sliceLastDim
      rw [if_neg (lt_irrefl _)]
      rfl
    unfold GCNGRU.forward
    have hmp : m.periods = P := rfl
    rw [hmp, mapRange_eq_none hlt hnone]
    rfl
  · intro hP hagree
    have hstep : ∀ t, t < P →
        m.stepOut X1 ei ew t = m.stepOut X2 ei ew t := by
      intro t ht
      unfold GCNGRU.stepOut
      rw [hagree t ht]
    unfold GCNGRU.forward
    have hmp : m.periods = P := rfl
    rw [hmp, mapRange_congr hstep]
    cases hmr : mapRange (m.stepOut X2 ei ew) P with
    | none => rfl
    | some outs =>
        have h0 : (m.stepOut X2 ei ew 0).isSome = true :=
          mapRange_isSome hmr 0 hP
        obtain ⟨s, h2s⟩ : ∃ s, sliceLastDim X2 0 = some s := by
          cases hc : sliceLastDim X2 0 with
          | none =>
              exfalso
              unfold GCNGRU.stepOut at h0
              rw [hc] at h0
              simp at h0
          | some s => exact ⟨s, rfl⟩
        have h1s : sliceLastDim X1 0 = some s := by
          rw [hagree 0 hP, h2s]
        have hX1 : slice4 X1 0 = s := by
          unfold sliceLastDim at h1s
          by_cases hcond : 0 < shape4dim3 X1
          · rw [if_pos hcond] at h1s
            exact Option.some.inj h1s
          · rw [if_neg hcond] at h1s
            cases h1s
        have hX2 : slice4 X2 0 = s := by
          unfold sliceLastDim at h2s
          by_cases hcond : 0 < shape4dim3 X2
          · rw [if_pos hcond] at h2s
            exact Option.some.inj h2s
          · rw [if_neg hcond] at h2s
            cases h2s
        have hlen : X1.length = X2.length := by
          rw [← slice4_length X1 0, ← slice4_length X2 0, hX1, hX2]
        have hhlen : X1.headI.length = X2.headI.length := by
          rw [← slice4_headI_length X1 0, ← slice4_headI_length X2 0,
            hX1, hX2]
        rw [hlen, hhlen]

set_option maxRecDepth 2000 in
/-- Witness for C10: an input with too few slices raises, and two inputs
differing only in a trailing slice beyond `periods` give equal
forecasts. -/
theorem claimC10_witness :
    (shape4dim3 ([[[[]]]] : Tensor4) < 1 ∧
      (GCNGRU.init 1 1 1 false false true witConv witGRU (fun _ _ => 0)
        (fun _ => 0)).forward [[[[]]]] [] none = none) ∧
    (0 < 1 ∧
      (∀ t, t < 1 → sliceLastDim ([[[[1, 2]]]] : Tensor4) t =
        sliceLastDim ([[[[1, 3]]]] : Tensor4) t) ∧
      (GCNGRU.init 1 1 1 false false true witConv witGRU (fun _ _ => 0)
          (fun _ => 0)).forward [[[[1, 2]]]] [] none =
        (GCNGRU.init 1 1 1 false false true witConv witGRU (fun _ _ => 0)
          (fun _ => 0)).forward [[[[1, 3]]]] [] none) :=
  ⟨⟨by decide,
    (claimC10 1 1 1 false false true witConv witGRU (fun _ _ => 0)
      (fun _ => 0) [[[[]]]] [[[[]]]] [] none).1 (by decide)⟩,
   ⟨by decide, by decide,
    (claimC10 1 1 1 false false true witConv witGRU (fun _ _ => 0)
      (fun _ => 0) [[[[1, 2]]]] [[[[1, 3]]]] [] none).2 (by decide)
      (by decide)⟩⟩
